import Mathlib

/-!
Verification development for the Remotion render server
(`src/unnamed/part_002` of the repository: an Express application that
renders video/still artifacts, caches them on disk, prunes old artifacts,
and deduplicates uploaded inline images by content hash).

The filesystem is embedded explicitly: the renders directory is an
`Option (List String)` of filenames (`none` models a missing directory,
whose `readdir` throws), the public directory is an association list from
filename to byte content, `stat` and `unlink` results are supplied by
oracles, and the external collaborators (`bundle`, `selectComposition`,
`renderMedia`, `renderStill`) are supplied as `Except`-valued oracles in an
`Env` record.  Machine words are `Nat` with explicit `% 2^32` where
overflow matters.
-/

set_option maxRecDepth 40000

/-! ### 32-bit word arithmetic (for the MD5 content hash used by the
upload deduplicator, `crypto.createHash('md5')`) -/

/-- Truncate to a 32-bit word. -/
def w32 (n : Nat) : Nat := n % 4294967296

/-- 32-bit modular addition. -/
def wadd (a b : Nat) : Nat := (a + b) % 4294967296

/-- 32-bit bitwise complement (inputs are `< 2^32`). -/
def wnot (a : Nat) : Nat := Nat.xor a 4294967295

/-- 32-bit left rotation by `s` (for `0 < s < 32` and `x < 2^32`). -/
def rotl (x s : Nat) : Nat := (x * 2 ^ s) % 4294967296 + x / 2 ^ (32 - s)

/-! ### MD5 over a byte sequence (RFC 1321), the hash used to derive
uploaded filenames -/

/-- MD5 round constants `K[i] = floor(2^32 * |sin(i+1)|)`. -/
def md5K : List Nat :=
  [0xd76aa478, 0xe8c7b756, 0x242070db, 0xc1bdceee,
   0xf57c0faf, 0x4787c62a, 0xa8304613, 0xfd469501,
   0x698098d8, 0x8b44f7af, 0xffff5bb1, 0x895cd7be,
   0x6b901122, 0xfd987193, 0xa679438e, 0x49b40821,
   0xf61e2562, 0xc040b340, 0x265e5a51, 0xe9b6c7aa,
   0xd62f105d, 0x02441453, 0xd8a1e681, 0xe7d3fbc8,
   0x21e1cde6, 0xc33707d6, 0xf4d50d87, 0x455a14ed,
   0xa9e3e905, 0xfcefa3f8, 0x676f02d9, 0x8d2a4c8a,
   0xfffa3942, 0x8771f681, 0x6d9d6122, 0xfde5380c,
   0xa4beea44, 0x4bdecfa9, 0xf6bb4b60, 0xbebfbc70,
   0x289b7ec6, 0xeaa127fa, 0xd4ef3085, 0x04881d05,
   0xd9d4d039, 0xe6db99e5, 0x1fa27cf8, 0xc4ac5665,
   0xf4292244, 0x432aff97, 0xab9423a7, 0xfc93a039,
   0x655b59c3, 0x8f0ccc92, 0xffeff47d, 0x85845dd1,
   0x6fa87e4f, 0xfe2ce6e0, 0xa3014314, 0x4e0811a1,
   0xf7537e82, 0xbd3af235, 0x2ad7d2bb, 0xeb86d391]

/-- MD5 per-round left-rotation amounts. -/
def md5S : List Nat :=
  [7, 12, 17, 22, 7, 12, 17, 22, 7, 12, 17, 22, 7, 12, 17, 22,
   5, 9, 14, 20, 5, 9, 14, 20, 5, 9, 14, 20, 5, 9, 14, 20,
   4, 11, 16, 23, 4, 11, 16, 23, 4, 11, 16, 23, 4, 11, 16, 23,
   6, 10, 15, 21, 6, 10, 15, 21, 6, 10, 15, 21, 6, 10, 15, 21]

/-- MD5 nonlinear function for round `i`. -/
def md5F (i b c d : Nat) : Nat :=
  if i < 16 then Nat.lor (Nat.land b c) (Nat.land (wnot b) d)
  else if i < 32 then Nat.lor (Nat.land d b) (Nat.land (wnot d) c)
  else if i < 48 then Nat.xor (Nat.xor b c) d
  else Nat.xor c (Nat.lor b (wnot d))

/-- MD5 message-word index for round `i`. -/
def md5G (i : Nat) : Nat :=
  if i < 16 then i
  else if i < 32 then (5 * i + 1) % 16
  else if i < 48 then (3 * i + 5) % 16
  else (7 * i) % 16

/-- Running MD5 state (four 32-bit words). -/
structure MD5State where
  a : Nat
  b : Nat
  c : Nat
  d : Nat
  deriving DecidableEq

/-- Little-endian 32-bit word `g` of a 64-byte block. -/
def md5Word (block : List Nat) (g : Nat) : Nat :=
  block.getD (4 * g) 0 + 256 * block.getD (4 * g + 1) 0 +
    65536 * block.getD (4 * g + 2) 0 + 16777216 * block.getD (4 * g + 3) 0

/-- One MD5 round. -/
def md5Step (block : List Nat) (st : MD5State) (i : Nat) : MD5State :=
  let f := wadd (wadd (wadd (md5F i st.b st.c st.d) st.a) (md5K.getD i 0))
    (md5Word block (md5G i))
  { a := st.d, b := wadd st.b (rotl f (md5S.getD i 0)), c := st.b, d := st.c }

/-- Process one 64-byte block. -/
def md5Block (st : MD5State) (block : List Nat) : MD5State :=
  let r := (List.range 64).foldl (md5Step block) st
  { a := wadd st.a r.a, b := wadd st.b r.b, c := wadd st.c r.c, d := wadd st.d r.d }

/-- MD5 padding: `0x80`, zeros to 56 mod 64, then the bit length as eight
little-endian bytes. -/
def md5Pad (msg : List Nat) : List Nat :=
  let L := msg.length
  msg ++ [128] ++ List.replicate ((119 - L % 64) % 64) 0 ++
    (List.range 8).map (fun i => 8 * L % 18446744073709551616 / 2 ^ (8 * i) % 256)

/-- Split a byte sequence into 64-byte blocks (fuel-driven so that the
kernel can evaluate it; `fuel = l.length` always suffices). -/
def chunks64Go : Nat → List Nat → List (List Nat)
  | 0, _ => []
  | _, [] => []
  | fuel + 1, x :: xs => (x :: xs).take 64 :: chunks64Go fuel ((x :: xs).drop 64)

/-- Split a byte sequence into 64-byte blocks. -/
def chunks64 (l : List Nat) : List (List Nat) := chunks64Go l.length l

/-- MD5 initial state. -/
def md5Init : MD5State :=
  { a := 0x67452301, b := 0xefcdab89, c := 0x98badcfe, d := 0x10325476 }

/-- Four little-endian bytes of a 32-bit word. -/
def leBytes4 (x : Nat) : List Nat :=
  [x % 256, x / 256 % 256, x / 65536 % 256, x / 16777216 % 256]

/-- MD5 digest (16 bytes) of a byte sequence. -/
def md5Bytes (msg : List Nat) : List Nat :=
  let fin := (chunks64 (md5Pad msg)).foldl md5Block md5Init
  leBytes4 fin.a ++ leBytes4 fin.b ++ leBytes4 fin.c ++ leBytes4 fin.d

/-- Lowercase hex digit. -/
def hexChar (n : Nat) : Char :=
  "0123456789abcdef".data.getD n '0'

/-- Two hex digits of a byte. -/
def byteHex (b : Nat) : List Char := [hexChar (b / 16), hexChar (b % 16)]

/-- Lowercase hex MD5 digest of a byte sequence (`digest('hex')`). -/
def md5Hex (msg : List Nat) : String :=
  String.mk ((md5Bytes msg).foldr (fun b acc => byteHex b ++ acc) [])

/-! ### UTF-8 encoding (Node's `hash.update(string)` hashes the UTF-8
bytes of the string) -/

/-- UTF-8 encoding of one code point. -/
def utf8EncodeChar (n : Nat) : List Nat :=
  if n < 128 then [n]
  else if n < 2048 then [192 + n / 64, 128 + n % 64]
  else if n < 65536 then [224 + n / 4096, 128 + n / 64 % 64, 128 + n % 64]
  else [240 + n / 262144, 128 + n / 4096 % 64, 128 + n / 64 % 64, 128 + n % 64]

/-- UTF-8 bytes of a string. -/
def utf8Bytes (s : String) : List Nat :=
  s.data.foldr (fun c acc => utf8EncodeChar c.toNat ++ acc) []

/-! ### Base64 decoding (Node's `Buffer.from(s, 'base64')`: forgiving
decoder that skips characters outside the alphabet, including padding,
and emits one byte per complete 8 bits) -/

/-- Value of one base64 alphabet character, `none` for everything else. -/
def base64Val (c : Char) : Option Nat :=
  if 'A' ≤ c ∧ c ≤ 'Z' then some (c.toNat - 65)
  else if 'a' ≤ c ∧ c ≤ 'z' then some (c.toNat - 71)
  else if '0' ≤ c ∧ c ≤ '9' then some (c.toNat + 4)
  else if c = '+' then some 62
  else if c = '/' then some 63
  else none

/-- Fold a list of sextets into bytes, carrying a bit buffer. -/
def b64Bytes : List Nat → Nat → Nat → List Nat
  | [], _, _ => []
  | v :: vs, acc, bits =>
    let acc2 := acc * 64 + v
    let bits2 := bits + 6
    if bits2 ≥ 8 then
      acc2 / 2 ^ (bits2 - 8) % 256 :: b64Bytes vs (acc2 % 2 ^ (bits2 - 8)) (bits2 - 8)
    else b64Bytes vs acc2 bits2

/-- Decoded bytes of a base64 string. -/
def base64Decode (s : String) : List Nat :=
  b64Bytes (s.data.filterMap base64Val) 0 0

/-! ### Sanity checks of the hash and decoder against standard vectors -/

/-- MD5 of the empty message matches the RFC 1321 test vector. -/
theorem md5Hex_nil : md5Hex (utf8Bytes "") = "d41d8cd98f00b204e9800998ecf8427e" := by
  decide

/-- MD5 of `"abc"` matches the RFC 1321 test vector. -/
theorem md5Hex_abc :
    md5Hex (utf8Bytes "abc") = "900150983cd24fb0d6963f7d28e17f72" := by
  decide

/-- `"QQ=="` decodes to the single byte `0x41`. -/
theorem base64Decode_QQpad : base64Decode "QQ==" = [65] := by decide

/-! ### The inline-image data-URL parser

`saveBase64Image` matches the payload against the regular expression
`^data:([A-Za-z-+\/]+);base64,(.+)$` (character class: letters, `-`, `+`,
`/`).  Because `;` is not in the class, the greedy `+` is equivalent to a
maximal-munch span, and without the `m`/`s` flags `.` excludes the four
JavaScript line terminators while `$` anchors at the very end, so the
regular expression is equivalent to the deterministic parse below. -/

/-- Member of the mime character class `[A-Za-z-+\/]`. -/
def isMimeChar (c : Char) : Bool :=
  ('A' ≤ c && c ≤ 'Z') || ('a' ≤ c && c ≤ 'z') || c == '-' || c == '+' || c == '/'

/-- JavaScript line terminators, which `.` does not match. -/
def isLineTerm (c : Char) : Bool :=
  c == '\n' || c == '\r' || c.toNat == 8232 || c.toNat == 8233

/-- Drop an expected leading character sequence, returning the remainder. -/
def dropLead : List Char → List Char → Option (List Char)
  | [], rest => some rest
  | _ :: _, [] => none
  | p :: ps, c :: cs => if p == c then dropLead ps cs else none

/-- Result of matching `^data:([A-Za-z-+\/]+);base64,(.+)$`: the mime type
and the base64 text, or `none` when the payload does not match. -/
def parseDataUrl (s : String) : Option (String × String) :=
  match dropLead "data:".data s.data with
  | none => none
  | some rest =>
    let mime := rest.takeWhile isMimeChar
    if mime.isEmpty then none
    else
      match dropLead ";base64,".data (rest.dropWhile isMimeChar) with
      | none => none
      | some dat =>
        if dat.isEmpty then none
        else if dat.any isLineTerm then none
        else some (String.mk mime, String.mk dat)

/-- Test `s.startsWith(pre)` on the character sequences. -/
def strStarts (s pre : String) : Bool := pre.data.isPrefixOf s.data

/-- Test `s.endsWith(suf)` on the character sequences. -/
def strEnds (s suf : String) : Bool := suf.data.isSuffixOf s.data

/-- `split('/')` on the character sequence. -/
def splitOnSlash : List Char → List (List Char)
  | [] => [[]]
  | c :: cs =>
    match splitOnSlash cs with
    | [] => [[]]
    | g :: gs => if c == '/' then [] :: g :: gs else (c :: g) :: gs

/-- File extension derived from the mime type:
`mimeType.split('/')[1] || 'png'` (`undefined` and `''` are falsy). -/
def extFromMime (mime : String) : String :=
  match (splitOnSlash mime.data).get? 1 with
  | none => "png"
  | some e => if e.isEmpty then "png" else String.mk e

/-- Filename derived for an upload: `uploaded_{md5-of-the-base64-text}.{ext}`.
Note the hash input is the base64 TEXT (`hash.update(base64String)`), not
the decoded bytes. -/
def uploadFilename (mime b64 : String) : String :=
  "uploaded_" ++ md5Hex (utf8Bytes b64) ++ "." ++ extFromMime mime

/-! ### The public directory and the upload deduplicator

The public directory is an association list from filename to byte
content; filenames in a real directory are unique, which the theorems
track through a `Nodup` hypothesis on the name column.  `ensurePublicDir`
creates the directory if missing, so the directory always exists here and
is represented directly by its listing. -/

/-- Listing of the public directory: filename and content bytes. -/
abbrev PublicDir := List (String × List Nat)

/-- Write a file (`fs.writeFile`): overwrite the entry of that name if one
exists, otherwise create it. -/
def insertFile : PublicDir → String → List Nat → PublicDir
  | [], name, content => [(name, content)]
  | e :: es, name, content =>
    if e.1 == name then (name, content) :: es else e :: insertFile es name content

/-- Embedding of `saveBase64Image`: validate the payload against the
data-URL pattern (a failed match throws, which the surrounding catch
rethrows as `Failed to save base64 image`), derive the filename from the
MD5 of the base64 text and the mime subtype, and write the decoded bytes. -/
def saveBase64Image (base64Data : String) (pub : PublicDir) :
    Except String (String × PublicDir) :=
  match parseDataUrl base64Data with
  | none => .error "Failed to save base64 image"
  | some (mime, b64String) =>
    let filename := uploadFilename mime b64String
    let buffer := base64Decode b64String
    .ok (filename, insertFile pub filename buffer)

/-! ### The POST /upload/image handler -/

/-- A JSON value as far as the handler inspects it: a string or anything
else. -/
inductive JsonVal
  | str (s : String)
  | other
  deriving DecidableEq

/-- Response of the upload endpoint. -/
inductive UploadResponse
  | badRequest (msg : String)
  | uploaded (filename : String)
  | serverError (msg : String)
  deriving DecidableEq

/-- HTTP status of an upload response (400 / 200 / 500). -/
def UploadResponse.status : UploadResponse → Nat
  | .badRequest _ => 400
  | .uploaded _ => 200
  | .serverError _ => 500

/-- Embedding of `app.post('/upload/image')`: a missing, non-string or
empty (falsy) `base64Data` and a payload that does not start with
`data:image/` get 400; afterwards `saveBase64Image` runs and any error it
throws is answered by the catch-all with 500. -/
def uploadImageHandler (body : Option JsonVal) (pub : PublicDir) :
    UploadResponse × PublicDir :=
  match body with
  | none => (.badRequest "base64Data is required and must be a string", pub)
  | some .other => (.badRequest "base64Data is required and must be a string", pub)
  | some (.str s) =>
    if s == "" then (.badRequest "base64Data is required and must be a string", pub)
    else if ¬ strStarts s "data:image/" then
      (.badRequest "Invalid base64 image format. Must start with \x22data:image/\x22", pub)
    else
      match saveBase64Image s pub with
      | .ok (filename, pub2) => (.uploaded filename, pub2)
      | .error e => (.serverError e, pub)

/-! ### The renders directory and the cache resolver

`readdir` on the renders directory either throws (directory missing,
modelled by `none`) or returns the list of filenames.  `path.join` /
`path.basename` round-trip on plain filenames from `readdir`, so the
resolver is modelled as returning the matching filename itself. -/

/-- Extension for a kind: `.png` for still, `.mp4` for video. -/
def extFor (isStill : Bool) : String := if isStill then ".png" else ".mp4"

/-- The filter used by both the cache resolver and the retention manager:
the name starts with the composition id and ends with the kind's
extension. -/
def matchesArtifact (compositionId : String) (isStill : Bool) (file : String) : Bool :=
  strStarts file compositionId && strEnds file (extFor isStill)

/-- `fs.readdir('./renders')` as an `Except`: throws when the directory is
missing. -/
def readdirRenders : Option (List String) → Except String (List String)
  | none => .error "ENOENT"
  | some files => .ok files

/-- Embedding of `getCachedFile`: the first directory-listing entry that
matches the composition id and extension; any `readdir` error is caught
and reported as `null` (no match).  The function performs no writes. -/
def getCachedFile (compositionId : String) (isStill : Bool)
    (dir : Option (List String)) : Option String :=
  match readdirRenders dir with
  | .error _ => none
  | .ok files => files.find? (matchesArtifact compositionId isStill)

/-- Replace `:` and `.` by `-`, as in
`toISOString().replace(/[:.]/g, '-')`. -/
def sanitizeStamp (s : String) : String :=
  String.mk (s.data.map (fun c => if c == ':' || c == '.' then '-' else c))

/-- Embedding of `generateFilename`:
`{compositionId}_{sanitized timestamp}.{png|mp4}`. -/
def generateFilename (compositionId : String) (isStill : Bool) (nowISO : String) :
    String :=
  compositionId ++ "_" ++ sanitizeStamp nowISO ++ "." ++
    (if isStill then "png" else "mp4")

/-! ### A stable comparison sort

`Array.prototype.sort` is a stable comparison sort; on a consistent
comparator every stable comparison sort produces the same list, so the
JavaScript sort is embedded as a stable insertion sort over the `Bool`
relation `le a b` meaning `compare(a, b) <= 0`. -/

/-- Insert `x` into `l`, placing it before the first element `y` with
`le x y` (stability: an element inserted later never moves before a tied
earlier element). -/
def insertSorted (le : α → α → Bool) (x : α) : List α → List α
  | [] => [x]
  | y :: ys => if le x y then x :: y :: ys else y :: insertSorted le x ys

/-- Stable insertion sort. -/
def sortByLe (le : α → α → Bool) : List α → List α
  | [] => []
  | x :: xs => insertSorted le x (sortByLe le xs)

/-! ### The retention manager (`cleanupOldFiles`) -/

/-- A directory entry paired with its `fs.stat` result (`none`: the stat
call threw and was skipped). -/
structure StatFile where
  name : String
  stats : Option Int
  deriving DecidableEq

/-- The comparator `(a, b) => b.stats.mtime - a.stats.mtime` (descending
modification time), with `0` — tie — whenever either stat is missing,
read as a `Bool` relation `compare(a, b) <= 0`. -/
def cleanupLe (a b : StatFile) : Bool :=
  match a.stats, b.stats with
  | some x, some y => y ≤ x
  | _, _ => true

/-- The matching files of the listing, paired with their stat results. -/
def cleanupCandidates (statOf : String → Option Int) (compositionId : String)
    (isStill : Bool) (files : List String) : List StatFile :=
  (files.filter (matchesArtifact compositionId isStill)).map
    (fun f => { name := f, stats := statOf f })

/-- Candidates sorted by modification time, newest first. -/
def cleanupSorted (statOf : String → Option Int) (compositionId : String)
    (isStill : Bool) (files : List String) : List StatFile :=
  sortByLe cleanupLe (cleanupCandidates statOf compositionId isStill files)

/-- Names the cleanup actually unlinks: everything beyond the 10 newest
(`slice(10)`), minus the files whose `unlink` threw (logged and
skipped). -/
def cleanupDeleted (statOf : String → Option Int) (unlinkOk : String → Bool)
    (compositionId : String) (isStill : Bool) (files : List String) : List String :=
  (((cleanupSorted statOf compositionId isStill files).drop 10).filter
    (fun f => unlinkOk f.name)).map (fun f => f.name)

/-- Embedding of `cleanupOldFiles`: on a missing directory the `readdir`
error is caught and nothing happens; otherwise the files matching the
composition id and extension are statted, sorted newest-first, and all
but the 10 newest are unlinked (each unlink best-effort). -/
def cleanupOldFiles (statOf : String → Option Int) (unlinkOk : String → Bool)
    (compositionId : String) (isStill : Bool) :
    Option (List String) → Option (List String)
  | none => none
  | some files =>
    some (files.filter
      (fun f => !((cleanupDeleted statOf unlinkOk compositionId isStill files).contains f)))

/-! ### The bundle manager (`initializeBundle`)

`let bundleLocation: string | null = null` with
`if (!bundleLocation) { bundleLocation = await bundle(...) }`.  The
JavaScript truthiness test treats both `null` and the empty string as
unset. -/

/-- Result of one `initializeBundle` call: what it returns, the
`bundleLocation` state afterwards, and how many times the external build
step ran during the call. -/
structure BundleOutcome where
  result : Except String String
  state : Option String
  builds : Nat

/-- Truthiness of the nullable `bundleLocation` variable: `null` and `""`
are falsy. -/
def bundleUnset : Option String → Bool
  | none => true
  | some s => s == ""

/-- Embedding of `initializeBundle`: rebuild when the memoized location is
falsy; a build failure propagates and leaves the state unchanged. -/
def initializeBundle (buildResult : Except String String) (st : Option String) :
    BundleOutcome :=
  if bundleUnset st then
    match buildResult with
    | .ok loc => { result := .ok loc, state := some loc, builds := 1 }
    | .error e => { result := .error e, state := st, builds := 1 }
  else
    { result := .ok (st.getD ""), state := st, builds := 0 }

/-! ### The render endpoints -/

/-- Input parameters: a record with unique keys and opaque values. -/
abbrev InputProps := List (String × String)

/-- Codec choices accepted by the video schema. -/
inductive Codec
  | h264
  | h265
  | prores
  deriving DecidableEq

/-- A parsed (schema-validated) POST /render/video body, with the zod
defaults already applied. -/
structure RenderVideoRequest where
  compositionId : String
  inputProps : InputProps := []
  compositionCache : Bool := false
  codec : Codec := .h264

/-- A parsed POST /render/still body. -/
structure RenderStillRequest where
  compositionId : String
  inputProps : InputProps := []
  compositionCache : Bool := false

/-- The resolved composition metadata (opaque to the handler). -/
structure CompositionMeta where
  id : String
  deriving DecidableEq

/-- Oracles for the external collaborators and the filesystem. -/
structure Env where
  bundleResult : Except String String
  selectComp : String → InputProps → Except String CompositionMeta
  runRenderMedia : CompositionMeta → String → Codec → String → InputProps → Except String Unit
  runRenderStill : CompositionMeta → String → String → InputProps → Except String Unit
  nowISO : String
  statOf : String → Option Int
  unlinkOk : String → Bool

/-- Mutable process/filesystem state the handlers touch. -/
structure ServerState where
  bundleLocation : Option String
  renders : Option (List String)

/-- Response of a render endpoint. -/
inductive RenderResponse
  | okCached (filename : String)
  | okRendered (filename : String)
  | serverError (msg : String)
  deriving DecidableEq

/-- Outcome of one render request: the response, how many times a render
engine primitive (`renderMedia` / `renderStill`) ran, how many times the
bundle build step ran, and the state afterwards. -/
structure RenderOutcome where
  response : RenderResponse
  engineCalls : Nat
  bundleBuilds : Nat
  state : ServerState

/-- The cache stage at the top of both render handlers: look for a cached
artifact only when `compositionCache` is set.  The lookup receives only
the composition id and the kind — never the input props. -/
def cacheStage (compositionId : String) (compositionCache : Bool) (isStill : Bool)
    (renders : Option (List String)) : Option String :=
  if compositionCache then getCachedFile compositionId isStill renders else none

/-- Embedding of `app.post('/render/video')`: cache check, bundle,
composition resolution, filename generation, `ensureRendersDir`,
`renderMedia` (on success the engine writes the artifact), cleanup; any
thrown error is answered with 500 by the catch-all. -/
def renderVideoHandler (env : Env) (req : RenderVideoRequest) (st : ServerState) :
    RenderOutcome :=
  match cacheStage req.compositionId req.compositionCache false st.renders with
  | some cachedFile =>
    { response := .okCached cachedFile, engineCalls := 0, bundleBuilds := 0, state := st }
  | none =>
    let bo := initializeBundle env.bundleResult st.bundleLocation
    match bo.result with
    | .error e =>
      { response := .serverError e, engineCalls := 0, bundleBuilds := bo.builds,
        state := { st with bundleLocation := bo.state } }
    | .ok bundlePath =>
      match env.selectComp req.compositionId req.inputProps with
      | .error e =>
        { response := .serverError e, engineCalls := 0, bundleBuilds := bo.builds,
          state := { st with bundleLocation := bo.state } }
      | .ok composition =>
        let filename := generateFilename req.compositionId false env.nowISO
        let ensured := some ((st.renders).getD [])
        match env.runRenderMedia composition bundlePath req.codec filename req.inputProps with
        | .error e =>
          { response := .serverError e, engineCalls := 1, bundleBuilds := bo.builds,
            state := { bundleLocation := bo.state, renders := ensured } }
        | .ok _ =>
          let written := some ((ensured.getD []) ++ [filename])
          { response := .okRendered filename, engineCalls := 1, bundleBuilds := bo.builds,
            state := { bundleLocation := bo.state,
                       renders := cleanupOldFiles env.statOf env.unlinkOk
                         req.compositionId false written } }

/-- Embedding of `app.post('/render/still')`, structured exactly like the
video handler but with the still kind and `renderStill`. -/
def renderStillHandler (env : Env) (req : RenderStillRequest) (st : ServerState) :
    RenderOutcome :=
  match cacheStage req.compositionId req.compositionCache true st.renders with
  | some cachedFile =>
    { response := .okCached cachedFile, engineCalls := 0, bundleBuilds := 0, state := st }
  | none =>
    let bo := initializeBundle env.bundleResult st.bundleLocation
    match bo.result with
    | .error e =>
      { response := .serverError e, engineCalls := 0, bundleBuilds := bo.builds,
        state := { st with bundleLocation := bo.state } }
    | .ok bundlePath =>
      match env.selectComp req.compositionId req.inputProps with
      | .error e =>
        { response := .serverError e, engineCalls := 0, bundleBuilds := bo.builds,
          state := { st with bundleLocation := bo.state } }
      | .ok composition =>
        let filename := generateFilename req.compositionId true env.nowISO
        let ensured := some ((st.renders).getD [])
        match env.runRenderStill composition bundlePath filename req.inputProps with
        | .error e =>
          { response := .serverError e, engineCalls := 1, bundleBuilds := bo.builds,
            state := { bundleLocation := bo.state, renders := ensured } }
        | .ok _ =>
          let written := some ((ensured.getD []) ++ [filename])
          { response := .okRendered filename, engineCalls := 1, bundleBuilds := bo.builds,
            state := { bundleLocation := bo.state,
                       renders := cleanupOldFiles env.statOf env.unlinkOk
                         req.compositionId true written } }

/-! ### Concrete oracle environment used by witnesses -/

/-- A concrete, fully successful environment. -/
def envW : Env :=
  { bundleResult := .ok "/bundle",
    selectComp := fun i _ => .ok { id := i },
    runRenderMedia := fun _ _ _ _ _ => .ok (),
    runRenderStill := fun _ _ _ _ => .ok (),
    nowISO := "2026-10-12T00:00:00.000Z",
    statOf := fun _ => some 0,
    unlinkOk := fun _ => true }

/-! ### Claim theorems -/

/-- C1: for every render request with the cache flag set for which the
cache resolver finds a matching artifact, the handler answers with that
artifact's filename and `cached:true` (the `okCached` response), the
render engine primitive is never invoked (`engineCalls = 0`), and the
state is untouched.  Stated for both the video and the still endpoint,
each over its own request and directory state, so either conjunct applies
on its own (in particular to directories holding only one kind). -/
theorem renderHandlers_cacheHit (env : Env) (vreq : RenderVideoRequest)
    (sreq : RenderStillRequest) (stv sts : ServerState) (f g : String) :
    (vreq.compositionCache = true →
      getCachedFile vreq.compositionId false stv.renders = some f →
      renderVideoHandler env vreq stv =
        { response := .okCached f, engineCalls := 0, bundleBuilds := 0,
          state := stv }) ∧
    (sreq.compositionCache = true →
      getCachedFile sreq.compositionId true sts.renders = some g →
      renderStillHandler env sreq sts =
        { response := .okCached g, engineCalls := 0, bundleBuilds := 0,
          state := sts }) := by
  constructor
  · intro hv hvf
    unfold renderVideoHandler cacheStage
    rw [hv]
    simp only [if_true, hvf]
  · intro hs hsg
    unfold renderStillHandler cacheStage
    rw [hs]
    simp only [if_true, hsg]

/-- C1 witness: a concrete video hit in a video-only directory, and a
concrete still hit in a still-only directory (the spec's `Intro`
scenario). -/
theorem renderHandlers_cacheHit_witness :
    getCachedFile "Comp" false (some ["Comp_a.mp4"]) = some "Comp_a.mp4" ∧
    getCachedFile "Intro" true (some ["Intro_x.png"]) = some "Intro_x.png" ∧
    renderVideoHandler envW { compositionId := "Comp", compositionCache := true }
        { bundleLocation := none, renders := some ["Comp_a.mp4"] } =
      { response := .okCached "Comp_a.mp4", engineCalls := 0, bundleBuilds := 0,
        state := { bundleLocation := none, renders := some ["Comp_a.mp4"] } } ∧
    renderStillHandler envW { compositionId := "Intro", compositionCache := true }
        { bundleLocation := none, renders := some ["Intro_x.png"] } =
      { response := .okCached "Intro_x.png", engineCalls := 0, bundleBuilds := 0,
        state := { bundleLocation := none, renders := some ["Intro_x.png"] } } :=
  ⟨by decide, by decide,
    (renderHandlers_cacheHit envW { compositionId := "Comp", compositionCache := true }
      { compositionId := "Intro", compositionCache := true }
      { bundleLocation := none, renders := some ["Comp_a.mp4"] }
      { bundleLocation := none, renders := some ["Intro_x.png"] }
      "Comp_a.mp4" "Intro_x.png").1 rfl (by decide),
    (renderHandlers_cacheHit envW { compositionId := "Comp", compositionCache := true }
      { compositionId := "Intro", compositionCache := true }
      { bundleLocation := none, renders := some ["Comp_a.mp4"] }
      { bundleLocation := none, renders := some ["Intro_x.png"] }
      "Comp_a.mp4" "Intro_x.png").2 rfl (by decide)⟩

/-- C7: the cache resolver on a nonexistent directory (where `readdir`
throws `ENOENT`) and on an empty directory reports no match (`none`)
rather than an error; it is a pure read with no writes. -/
theorem getCachedFile_missing_or_empty (compositionId : String) (isStill : Bool) :
    getCachedFile compositionId isStill none = none ∧
    getCachedFile compositionId isStill (some []) = none ∧
    readdirRenders none = .error "ENOENT" :=
  ⟨rfl, rfl, rfl⟩

/-- C9: the cache lookup stage of the render handlers is a function of the
composition id, the cache flag and the directory state only — two
cache-enabled requests that differ only in their input props get the
identical lookup result (same hit file, or both miss). -/
theorem cacheStage_ignores_inputProps (r : RenderVideoRequest) (p : InputProps)
    (s : RenderStillRequest) (q : InputProps) (renders : Option (List String))
    (hr : r.compositionCache = true) (hs : s.compositionCache = true) :
    cacheStage { r with inputProps := p }.compositionId
        { r with inputProps := p }.compositionCache false renders =
      cacheStage r.compositionId r.compositionCache false renders ∧
    cacheStage { s with inputProps := q }.compositionId
        { s with inputProps := q }.compositionCache true renders =
      cacheStage s.compositionId s.compositionCache true renders :=
  ⟨rfl, rfl⟩

/-- C9 witness: concrete cache-enabled requests with different props. -/
theorem cacheStage_ignores_inputProps_witness :
    ({ compositionId := "Comp", compositionCache := true } : RenderVideoRequest).compositionCache = true ∧
    ({ compositionId := "Comp", compositionCache := true } : RenderStillRequest).compositionCache = true ∧
    cacheStage "Comp" true false (some ["Comp_a.mp4"]) =
      cacheStage "Comp" true false (some ["Comp_a.mp4"]) :=
  ⟨rfl, rfl,
    (cacheStage_ignores_inputProps { compositionId := "Comp", compositionCache := true }
      [("title", "x")] { compositionId := "Comp", compositionCache := true }
      [("title", "y")] (some ["Comp_a.mp4"]) rfl rfl).1⟩

/-- C6 counterexample: the build can succeed with the empty string as the
handle; the memoization test `!bundleLocation` treats that handle as
unset, so the next call rebuilds (`builds = 1`) and can return a
different handle — refuting "after one successful call every subsequent
call returns that same handle and the build step is not invoked again". -/
theorem initializeBundle_empty_handle_rebuilds :
    initializeBundle (.ok "") none = { result := .ok "", state := some "", builds := 1 } ∧
    initializeBundle (.ok "/bundle2") (some "") =
      { result := .ok "/bundle2", state := some "/bundle2", builds := 1 } :=
  ⟨rfl, rfl⟩

/-- C6 amended: after one successful call returns a NONEMPTY handle,
every subsequent call returns that same handle without invoking the
build step; a failed build leaves the memoized state unset, and any later
call on unset state re-attempts the build. -/
theorem initializeBundle_memoizes (b2 : Except String String) (h e : String)
    (hne : h ≠ "") :
    initializeBundle (.ok h) none = { result := .ok h, state := some h, builds := 1 } ∧
    initializeBundle b2 (some h) = { result := .ok h, state := some h, builds := 0 } ∧
    initializeBundle (.error e) none = { result := .error e, state := none, builds := 1 } ∧
    (initializeBundle b2 none).builds = 1 := by
  refine ⟨rfl, ?_, rfl, ?_⟩
  · simp [initializeBundle, bundleUnset, hne]
  · cases b2 <;> rfl

/-- C6 amended witness: a concrete nonempty handle. -/
theorem initializeBundle_memoizes_witness :
    "/bundle" ≠ "" ∧
    initializeBundle (.ok "/other") (some "/bundle") =
      { result := .ok "/bundle", state := some "/bundle", builds := 0 } :=
  ⟨by decide, (initializeBundle_memoizes (.ok "/other") "/bundle" "boom" (by decide)).2.1⟩

/-! ### Lemmas about `insertFile` -/

/-- Entries whose name never matches are dropped whole by the name filter. -/
theorem filter_name_eq_nil (es : PublicDir) (n : String)
    (h : ∀ e ∈ es, (e.1 == n) = false) :
    es.filter (fun e => e.1 == n) = [] := by
  induction es with
  | nil => rfl
  | cons e es ih =>
    have he := h e (List.mem_cons_self e es)
    simp only [List.filter_cons, he]
    exact ih fun e' he' => h e' (List.mem_cons_of_mem e he')

/-- After a write into a directory with unique names, the entries of that
name are exactly the one written. -/
theorem insertFile_filter (d : PublicDir) (n : String) (v : List Nat)
    (hnd : (d.map Prod.fst).Nodup) :
    (insertFile d n v).filter (fun e => e.1 == n) = [(n, v)] := by
  induction d with
  | nil => simp [insertFile]
  | cons e es ih =>
    have hnd2 : (es.map Prod.fst).Nodup := by
      simp only [List.map_cons, List.nodup_cons] at hnd
      exact hnd.2
    have hnm : e.1 ∉ es.map Prod.fst := by
      simp only [List.map_cons, List.nodup_cons] at hnd
      exact hnd.1
    by_cases he : (e.1 == n) = true
    · have hen : e.1 = n := eq_of_beq he
      have htail : es.filter (fun x => x.1 == n) = [] := by
        refine filter_name_eq_nil es n fun x hx => ?_
        by_cases h2 : (x.1 == n) = true
        · exact absurd (by rw [hen]; exact (eq_of_beq h2) ▸ List.mem_map_of_mem Prod.fst hx)
            hnm
        · simpa using h2
      simp [insertFile, he, List.filter_cons, htail]
    · have hef : (e.1 == n) = false := by simpa using he
      simp [insertFile, hef, List.filter_cons, ih hnd2]

/-- Writing a value that is already the unique entry of that name leaves
the directory unchanged. -/
theorem insertFile_of_filter (d : PublicDir) (n : String) (v : List Nat)
    (h : d.filter (fun e => e.1 == n) = [(n, v)]) :
    insertFile d n v = d := by
  induction d with
  | nil => simp at h
  | cons e es ih =>
    by_cases he : (e.1 == n) = true
    · simp only [List.filter_cons, he, if_true, List.cons.injEq] at h
      simp [insertFile, he, h.1]
    · have hef : (e.1 == n) = false := by simpa using he
      simp only [List.filter_cons, hef] at h
      simp only [insertFile, hef, Bool.false_eq_true, if_false, List.cons.injEq]
      exact ⟨trivial, ih (by simpa using h)⟩

/-- C3 counterexample: the payloads `data:image/png;base64,QQ==` and
`data:image/png;base64,QQ` decode to the same byte sequence `[0x41]` and
declare the same mime subtype, yet the derived filenames differ, because
the hash is computed over the base64 text, not the decoded bytes. -/
theorem saveBase64Image_hashes_text_not_bytes :
    base64Decode "QQ==" = base64Decode "QQ" ∧
    saveBase64Image "data:image/png;base64,QQ==" [] =
      .ok ("uploaded_3d139295406318ab839c07cc89f46e99.png",
        [("uploaded_3d139295406318ab839c07cc89f46e99.png", [65])]) ∧
    saveBase64Image "data:image/png;base64,QQ" [] =
      .ok ("uploaded_7e56035a736d269ad670f312496a0846.png",
        [("uploaded_7e56035a736d269ad670f312496a0846.png", [65])]) ∧
    ("uploaded_3d139295406318ab839c07cc89f46e99.png" : String) ≠
      "uploaded_7e56035a736d269ad670f312496a0846.png" :=
  ⟨rfl, rfl, rfl, by decide⟩

/-- C3 amended: the content hash is computed over the base64 TEXT of the
payload — any two well-formed payloads with the SAME base64 text (and
mime subtypes giving the same extension) produce the same filename. -/
theorem saveBase64Image_filename_of_b64 (p1 p2 m1 m2 b : String)
    (pub1 pub2 : PublicDir)
    (h1 : parseDataUrl p1 = some (m1, b)) (h2 : parseDataUrl p2 = some (m2, b))
    (hext : extFromMime m1 = extFromMime m2) :
    ∃ fn d1 d2, saveBase64Image p1 pub1 = .ok (fn, d1) ∧
      saveBase64Image p2 pub2 = .ok (fn, d2) := by
  have hfn : uploadFilename m2 b = uploadFilename m1 b := by
    simp [uploadFilename, hext]
  refine ⟨uploadFilename m1 b,
    insertFile pub1 (uploadFilename m1 b) (base64Decode b),
    insertFile pub2 (uploadFilename m1 b) (base64Decode b), ?_, ?_⟩
  · simp [saveBase64Image, h1]
  · simp [saveBase64Image, h2, hfn]

/-- C3 amended witness: same base64 text under two different mime types
with the same derived extension. -/
theorem saveBase64Image_filename_of_b64_witness :
    parseDataUrl "data:image/png;base64,AA" = some ("image/png", "AA") ∧
    parseDataUrl "data:foo/png;base64,AA" = some ("foo/png", "AA") ∧
    extFromMime "image/png" = extFromMime "foo/png" ∧
    ∃ fn d1 d2,
      saveBase64Image "data:image/png;base64,AA" [] = .ok (fn, d1) ∧
      saveBase64Image "data:foo/png;base64,AA" [] = .ok (fn, d2) :=
  ⟨by decide, by decide, by decide,
    saveBase64Image_filename_of_b64 "data:image/png;base64,AA" "data:foo/png;base64,AA"
      "image/png" "foo/png" "AA" [] [] (by decide) (by decide) (by decide)⟩

/-- C4 counterexample: the payload `data:image/pngnope` does not match the
inline-image-data pattern (no `;base64,` part), yet it passes the
handler's `startsWith('data:image/')` check, so `saveBase64Image` throws
and the catch-all answers 500, not 400. -/
theorem uploadImage_malformed_500 :
    parseDataUrl "data:image/pngnope" = none ∧
    uploadImageHandler (some (.str "data:image/pngnope")) [] =
      (.serverError "Failed to save base64 image", []) ∧
    (uploadImageHandler (some (.str "data:image/pngnope")) []).1.status = 500 :=
  ⟨by decide, by decide, by decide⟩

/-- C4 amended: a missing, non-string or empty payload, and a string
payload that does not start with `data:image/`, are answered with 400;
a payload that passes that prefix check but fails the full
inline-image-data pattern is answered with 500. -/
theorem uploadImageHandler_statuses (s : String) (pub : PublicDir) :
    (uploadImageHandler none pub).1.status = 400 ∧
    (uploadImageHandler (some .other) pub).1.status = 400 ∧
    (strStarts s "data:image/" = false →
      (uploadImageHandler (some (.str s)) pub).1.status = 400) ∧
    (strStarts s "data:image/" = true → parseDataUrl s = none →
      (uploadImageHandler (some (.str s)) pub).1.status = 500) := by
  refine ⟨rfl, rfl, ?_, ?_⟩
  · intro hstart
    by_cases hs : (s == "") = true
    · simp [uploadImageHandler, hs, UploadResponse.status]
    · simp [uploadImageHandler, hs, hstart, UploadResponse.status]
  · intro hstart hparse
    have hs : (s == "") = false := by
      by_cases hs' : (s == "") = true
      · rw [eq_of_beq hs'] at hstart
        exact absurd hstart (by decide)
      · simpa using hs'
    simp [uploadImageHandler, hs, hstart, saveBase64Image, hparse, UploadResponse.status]

/-- C4 amended witness: one refused payload and one 500 payload. -/
theorem uploadImageHandler_statuses_witness :
    strStarts "xyz" "data:image/" = false ∧
    (uploadImageHandler (some (.str "xyz")) []).1.status = 400 ∧
    strStarts "data:image/pngnope" "data:image/" = true ∧
    parseDataUrl "data:image/pngnope" = none ∧
    (uploadImageHandler (some (.str "data:image/pngnope")) []).1.status = 500 :=
  ⟨by decide, (uploadImageHandler_statuses "xyz" []).2.2.1 (by decide),
   by decide, by decide,
   (uploadImageHandler_statuses "data:image/pngnope" []).2.2.2 (by decide) (by decide)⟩

/-- C5: uploading the same well-formed payload twice is idempotent — both
calls return the same filename and succeed, and afterwards the public
directory holds exactly one entry of that name, containing the decoded
bytes. -/
theorem saveBase64Image_idempotent (p : String) (pub : PublicDir)
    (hnd : (pub.map Prod.fst).Nodup) (mime b64 : String)
    (hp : parseDataUrl p = some (mime, b64)) :
    ∃ fn pub2,
      saveBase64Image p pub = .ok (fn, pub2) ∧
      saveBase64Image p pub2 = .ok (fn, pub2) ∧
      pub2.filter (fun e => e.1 == fn) = [(fn, base64Decode b64)] ∧
      (pub2.filter (fun e => e.1 == fn)).length = 1 := by
  refine ⟨uploadFilename mime b64,
    insertFile pub (uploadFilename mime b64) (base64Decode b64), ?_, ?_, ?_, ?_⟩
  · simp [saveBase64Image, hp]
  · have hfix := insertFile_of_filter
      (insertFile pub (uploadFilename mime b64) (base64Decode b64))
      (uploadFilename mime b64) (base64Decode b64)
      (insertFile_filter pub (uploadFilename mime b64) (base64Decode b64) hnd)
    simp [saveBase64Image, hp, hfix]
  · exact insertFile_filter pub (uploadFilename mime b64) (base64Decode b64) hnd
  · rw [insertFile_filter pub (uploadFilename mime b64) (base64Decode b64) hnd]
    rfl

/-- C5 witness: a concrete double upload into an empty directory. -/
theorem saveBase64Image_idempotent_witness :
    (([] : PublicDir).map Prod.fst).Nodup ∧
    parseDataUrl "data:image/png;base64,QQ==" = some ("image/png", "QQ==") ∧
    ∃ fn pub2,
      saveBase64Image "data:image/png;base64,QQ==" [] = .ok (fn, pub2) ∧
      saveBase64Image "data:image/png;base64,QQ==" pub2 = .ok (fn, pub2) ∧
      pub2.filter (fun e => e.1 == fn) = [(fn, base64Decode "QQ==")] ∧
      (pub2.filter (fun e => e.1 == fn)).length = 1 :=
  ⟨List.nodup_nil, by decide,
    saveBase64Image_idempotent "data:image/png;base64,QQ==" [] List.nodup_nil
      "image/png" "QQ==" (by decide)⟩

/-! ### C8: cache-off requests and the engine -/

/-- An environment whose composition registry rejects every id. -/
def envFail : Env :=
  { envW with selectComp := fun _ _ => .error "Composition not found" }

/-- C8 counterexample: a cache-off request whose composition resolution
fails is answered 500 with the engine invoked ZERO times, even though a
matching artifact exists — refuting "the render engine primitive is
invoked exactly once for every request with the cache flag off". -/
theorem renderVideo_noCache_engine_skipped :
    envFail.selectComp "Comp" [] = .error "Composition not found" ∧
    ({ compositionId := "Comp" } : RenderVideoRequest).compositionCache = false ∧
    matchesArtifact "Comp" false "Comp_a.mp4" = true ∧
    renderVideoHandler envFail { compositionId := "Comp" }
        { bundleLocation := some "/bundle", renders := some ["Comp_a.mp4"] } =
      { response := .serverError "Composition not found", engineCalls := 0,
        bundleBuilds := 0,
        state := { bundleLocation := some "/bundle", renders := some ["Comp_a.mp4"] } } :=
  ⟨rfl, rfl, by decide, rfl⟩

/-- C8 amended: with the cache flag off, provided bundle initialization
and composition resolution succeed, each handler invokes its render
engine primitive exactly once — even when a matching artifact already
exists, and regardless of whether the engine call succeeds or fails. -/
theorem renderHandlers_noCache_engine_once (env : Env) (vreq : RenderVideoRequest)
    (sreq : RenderStillRequest) (st : ServerState) (bp : String)
    (c c2 : CompositionMeta)
    (hv : vreq.compositionCache = false)
    (hb : (initializeBundle env.bundleResult st.bundleLocation).result = .ok bp)
    (hc : env.selectComp vreq.compositionId vreq.inputProps = .ok c)
    (hs : sreq.compositionCache = false)
    (hc2 : env.selectComp sreq.compositionId sreq.inputProps = .ok c2) :
    (renderVideoHandler env vreq st).engineCalls = 1 ∧
    (renderStillHandler env sreq st).engineCalls = 1 := by
  constructor
  · unfold renderVideoHandler cacheStage
    rw [hv]
    simp only [Bool.false_eq_true, if_false, hb, hc]
    cases env.runRenderMedia c bp vreq.codec
      (generateFilename vreq.compositionId false env.nowISO) vreq.inputProps <;> rfl
  · unfold renderStillHandler cacheStage
    rw [hs]
    simp only [Bool.false_eq_true, if_false, hb, hc2]
    cases env.runRenderStill c2 bp
      (generateFilename sreq.compositionId true env.nowISO) sreq.inputProps <;> rfl

/-- C8 amended witness: concrete cache-off requests against a directory
that does contain matching artifacts. -/
theorem renderHandlers_noCache_engine_once_witness :
    (initializeBundle envW.bundleResult none).result = .ok "/bundle" ∧
    envW.selectComp "Comp" [] = .ok { id := "Comp" } ∧
    matchesArtifact "Comp" false "Comp_a.mp4" = true ∧
    matchesArtifact "Comp" true "Comp_b.png" = true ∧
    (renderVideoHandler envW { compositionId := "Comp" }
      { bundleLocation := none, renders := some ["Comp_a.mp4", "Comp_b.png"] }).engineCalls = 1 ∧
    (renderStillHandler envW { compositionId := "Comp" }
      { bundleLocation := none, renders := some ["Comp_a.mp4", "Comp_b.png"] }).engineCalls = 1 :=
  ⟨rfl, rfl, by decide, by decide,
    (renderHandlers_noCache_engine_once envW { compositionId := "Comp" }
      { compositionId := "Comp" }
      { bundleLocation := none, renders := some ["Comp_a.mp4", "Comp_b.png"] }
      "/bundle" { id := "Comp" } { id := "Comp" } rfl rfl rfl rfl rfl).1,
    (renderHandlers_noCache_engine_once envW { compositionId := "Comp" }
      { compositionId := "Comp" }
      { bundleLocation := none, renders := some ["Comp_a.mp4", "Comp_b.png"] }
      "/bundle" { id := "Comp" } { id := "Comp" } rfl rfl rfl rfl rfl).2⟩

/-! ### Permutation and sortedness lemmas for the stable insertion sort -/

/-- Inserting is a permutation of consing. -/
theorem insertSorted_perm (le : α → α → Bool) (x : α) (l : List α) :
    List.Perm (insertSorted le x l) (x :: l) := by
  induction l with
  | nil => exact List.Perm.refl _
  | cons y ys ih =>
    by_cases h : le x y = true
    · simp [insertSorted, h]
    · have h2 : le x y = false := by simpa using h
      simp only [insertSorted, h2, Bool.false_eq_true, if_false]
      exact (ih.cons y).trans (List.Perm.swap x y ys)

/-- Sorting is a permutation. -/
theorem sortByLe_perm (le : α → α → Bool) (l : List α) : List.Perm (sortByLe le l) l := by
  induction l with
  | nil => exact List.Perm.refl _
  | cons x xs ih => exact (insertSorted_perm le x (sortByLe le xs)).trans (ih.cons x)

/-- Membership after insertion. -/
theorem mem_insertSorted {le : α → α → Bool} {x z : α} {l : List α} :
    z ∈ insertSorted le x l ↔ z = x ∨ z ∈ l := by
  rw [(insertSorted_perm le x l).mem_iff, List.mem_cons]

/-- Inserting into a sorted list keeps it sorted, for a relation that is
total and transitive on the elements involved. -/
theorem insertSorted_pairwise (le : α → α → Bool) (P : α → Prop)
    (htot : ∀ a b, P a → P b → le a b = true ∨ le b a = true)
    (htrans : ∀ a b c, P a → P b → P c →
      le a b = true → le b c = true → le a c = true)
    (x : α) (l : List α) (hx : P x) (hl : ∀ y ∈ l, P y)
    (hp : l.Pairwise (fun a b => le a b = true)) :
    (insertSorted le x l).Pairwise (fun a b => le a b = true) := by
  induction l with
  | nil => simp [insertSorted]
  | cons y ys ih =>
    have hy : P y := hl y (List.mem_cons_self y ys)
    have hys : ∀ z ∈ ys, P z := fun z hz => hl z (List.mem_cons_of_mem y hz)
    rw [List.pairwise_cons] at hp
    by_cases h : le x y = true
    · simp only [insertSorted, h, if_true]
      rw [List.pairwise_cons]
      refine ⟨?_, List.pairwise_cons.mpr hp⟩
      intro z hz
      rcases List.mem_cons.mp hz with rfl | hz2
      · exact h
      · exact htrans x y z hx hy (hys z hz2) h (hp.1 z hz2)
    · have h2 : le x y = false := by simpa using h
      have hyx : le y x = true := by
        rcases htot x y hx hy with h3 | h3
        · rw [h2] at h3
          cases h3
        · exact h3
      simp only [insertSorted, h2, Bool.false_eq_true, if_false]
      rw [List.pairwise_cons]
      refine ⟨?_, ih hys hp.2⟩
      intro z hz
      rcases mem_insertSorted.mp hz with rfl | hz2
      · exact hyx
      · exact hp.1 z hz2

/-- The sort output is pairwise ordered, for a relation total and
transitive on the list's elements. -/
theorem sortByLe_pairwise (le : α → α → Bool) (P : α → Prop)
    (htot : ∀ a b, P a → P b → le a b = true ∨ le b a = true)
    (htrans : ∀ a b c, P a → P b → P c →
      le a b = true → le b c = true → le a c = true)
    (l : List α) (hl : ∀ y ∈ l, P y) :
    (sortByLe le l).Pairwise (fun a b => le a b = true) := by
  induction l with
  | nil => simp [sortByLe]
  | cons x xs ih =>
    refine insertSorted_pairwise le P htot htrans x (sortByLe le xs)
      (hl x (List.mem_cons_self x xs))
      (fun y hy => hl y (List.mem_cons_of_mem x ((sortByLe_perm le xs).mem_iff.mp hy)))
      (ih fun y hy => hl y (List.mem_cons_of_mem x hy))

/-- The cleanup comparator is total (missing stats compare as ties). -/
theorem cleanupLe_total (a b : StatFile) :
    cleanupLe a b = true ∨ cleanupLe b a = true := by
  obtain ⟨na, _ | x⟩ := a <;> obtain ⟨nb, _ | y⟩ := b <;> simp [cleanupLe]
  exact Int.le_total y x

/-- The cleanup comparator is transitive on files whose stat succeeded. -/
theorem cleanupLe_trans (a b c : StatFile) (ha : a.stats.isSome = true)
    (hb : b.stats.isSome = true) (hc : c.stats.isSome = true) :
    cleanupLe a b = true → cleanupLe b c = true → cleanupLe a c = true := by
  obtain ⟨na, _ | x⟩ := a
  · simp at ha
  obtain ⟨nb, _ | y⟩ := b
  · simp at hb
  obtain ⟨nc, _ | z⟩ := c
  · simp at hc
  simp [cleanupLe]
  exact fun h1 h2 => le_trans h2 h1

/-- Every name the cleanup deletes matched the composition-and-extension
filter. -/
theorem cleanupDeleted_matches (statOf : String → Option Int)
    (unlinkOk : String → Bool) (compositionId : String) (isStill : Bool)
    (files : List String) (f : String)
    (hf : f ∈ cleanupDeleted statOf unlinkOk compositionId isStill files) :
    matchesArtifact compositionId isStill f = true := by
  unfold cleanupDeleted at hf
  obtain ⟨sf, hsf, rfl⟩ := List.mem_map.mp hf
  have hsf2 : sf ∈ cleanupSorted statOf compositionId isStill files :=
    List.mem_of_mem_drop (List.mem_filter.mp hsf).1
  have hsf3 : sf ∈ cleanupCandidates statOf compositionId isStill files :=
    (sortByLe_perm cleanupLe _).mem_iff.mp hsf2
  obtain ⟨g, hg, hEq⟩ := List.mem_map.mp hsf3
  rw [← hEq]
  exact (List.mem_filter.mp hg).2

/-- C10: pruning for a composition id and kind never deletes a file whose
name does not both start with that id and end with that kind's extension:
every non-matching file of the listing is still present afterwards, and
pruning only ever removes files (it adds none). -/
theorem cleanupOldFiles_frame (statOf : String → Option Int)
    (unlinkOk : String → Bool) (compositionId : String) (isStill : Bool)
    (files : List String) (f : String)
    (hf : f ∈ files) (hnm : matchesArtifact compositionId isStill f = false) :
    f ∈ (cleanupOldFiles statOf unlinkOk compositionId isStill (some files)).getD [] ∧
    ∀ g, g ∈ (cleanupOldFiles statOf unlinkOk compositionId isStill (some files)).getD [] →
      g ∈ files := by
  constructor
  · have hcon : (cleanupDeleted statOf unlinkOk compositionId isStill files).contains f
        = false := by
      by_cases h : f ∈ cleanupDeleted statOf unlinkOk compositionId isStill files
      · have := cleanupDeleted_matches statOf unlinkOk compositionId isStill files f h
        rw [hnm] at this
        cases this
      · simpa [List.elem_iff] using h
    simp only [cleanupOldFiles, Option.getD_some]
    exact List.mem_filter.mpr ⟨hf, by rw [hcon] ; rfl⟩
  · intro g hg
    simp only [cleanupOldFiles, Option.getD_some] at hg
    exact (List.mem_filter.mp hg).1

/-- C10 witness: a non-matching file survives a concrete pruning. -/
theorem cleanupOldFiles_frame_witness :
    "Other.txt" ∈ ["Other.txt", "C_1.mp4"] ∧
    matchesArtifact "C" false "Other.txt" = false ∧
    "Other.txt" ∈ (cleanupOldFiles (fun _ => some 0) (fun _ => true) "C" false
      (some ["Other.txt", "C_1.mp4"])).getD [] :=
  ⟨by decide, by decide,
    (cleanupOldFiles_frame (fun _ => some 0) (fun _ => true) "C" false
      ["Other.txt", "C_1.mp4"] "Other.txt" (by decide) (by decide)).1⟩

/-- When every matching file can be unlinked, the deleted names are
exactly the names beyond position 10 of the sorted candidates. -/
theorem cleanupDeleted_eq_dropNames (statOf : String → Option Int)
    (unlinkOk : String → Bool) (compositionId : String) (isStill : Bool)
    (files : List String)
    (hunl : ∀ f ∈ files, matchesArtifact compositionId isStill f = true →
      unlinkOk f = true) :
    cleanupDeleted statOf unlinkOk compositionId isStill files =
      ((cleanupSorted statOf compositionId isStill files).drop 10).map
        (fun sf => sf.name) := by
  unfold cleanupDeleted
  congr 1
  apply List.filter_eq_self.mpr
  intro sf hsf
  have hsf2 : sf ∈ cleanupCandidates statOf compositionId isStill files :=
    (sortByLe_perm cleanupLe _).mem_iff.mp (List.mem_of_mem_drop hsf)
  obtain ⟨g, hg, hEq⟩ := List.mem_map.mp hsf2
  obtain ⟨hgf, hgm⟩ := List.mem_filter.mp hg
  rw [← hEq]
  exact hunl g hgf hgm

/-- Sorted candidate names are a permutation of the matching files. -/
theorem cleanupSorted_names_perm (statOf : String → Option Int)
    (compositionId : String) (isStill : Bool) (files : List String) :
    List.Perm ((cleanupSorted statOf compositionId isStill files).map (fun sf => sf.name))
      (files.filter (matchesArtifact compositionId isStill)) := by
  have h1 := (sortByLe_perm cleanupLe
    (cleanupCandidates statOf compositionId isStill files)).map (fun sf => sf.name)
  have h2 : (cleanupCandidates statOf compositionId isStill files).map
      (fun sf => sf.name) = files.filter (matchesArtifact compositionId isStill) := by
    rw [cleanupCandidates, List.map_map]
    exact List.map_id'' (fun a => rfl) _
  rw [h2] at h1
  exact h1

/-- Every sorted candidate records the stat of its own name, and its name
is one of the matching files. -/
theorem mem_cleanupSorted (statOf : String → Option Int) (compositionId : String)
    (isStill : Bool) (files : List String) (sf : StatFile)
    (h : sf ∈ cleanupSorted statOf compositionId isStill files) :
    sf.stats = statOf sf.name ∧
    sf.name ∈ files.filter (matchesArtifact compositionId isStill) := by
  have h2 : sf ∈ cleanupCandidates statOf compositionId isStill files :=
    (sortByLe_perm cleanupLe _).mem_iff.mp h
  obtain ⟨g, hg, hEq⟩ := List.mem_map.mp h2
  refine ⟨?_, ?_⟩
  · rw [← hEq]
  · rw [← hEq]
    exact hg

/-- When every matching file statted successfully, the sorted candidates
are pairwise ordered by the cleanup comparator. -/
theorem cleanupSorted_pairwise (statOf : String → Option Int)
    (compositionId : String) (isStill : Bool) (files : List String)
    (hstat : ∀ f ∈ files, matchesArtifact compositionId isStill f = true →
      (statOf f).isSome = true) :
    (cleanupSorted statOf compositionId isStill files).Pairwise
      (fun a b => cleanupLe a b = true) := by
  unfold cleanupSorted
  refine sortByLe_pairwise cleanupLe (fun sf => sf.stats.isSome = true)
    (fun a b _ _ => cleanupLe_total a b)
    (fun a b c ha hb hc => cleanupLe_trans a b c ha hb hc) _ ?_
  intro sf hsf
  obtain ⟨g, hg, hEq⟩ := List.mem_map.mp hsf
  obtain ⟨hgf, hgm⟩ := List.mem_filter.mp hg
  rw [← hEq]
  exact hstat g hgf hgm

/-- Reading the comparator on two files with present stats. -/
theorem cleanupLe_elim (a b : StatFile) (x y : Int) (ha : a.stats = some x)
    (hb : b.stats = some y) (h : cleanupLe a b = true) : y ≤ x := by
  unfold cleanupLe at h
  rw [ha, hb] at h
  exact of_decide_eq_true h

/-- The matching files that survive pruning are, up to order, exactly the
names of the first 10 sorted candidates. -/
theorem cleanup_kept_perm (statOf : String → Option Int) (unlinkOk : String → Bool)
    (compositionId : String) (isStill : Bool) (files : List String)
    (hnd : files.Nodup)
    (hunl : ∀ f ∈ files, matchesArtifact compositionId isStill f = true →
      unlinkOk f = true) :
    List.Perm
      ((files.filter (fun f =>
        !((cleanupDeleted statOf unlinkOk compositionId isStill files).contains f))).filter
        (matchesArtifact compositionId isStill))
      (((cleanupSorted statOf compositionId isStill files).take 10).map
        (fun sf => sf.name)) := by
  have hdel2 := cleanupDeleted_eq_dropNames statOf unlinkOk compositionId isStill files hunl
  have hnames := cleanupSorted_names_perm statOf compositionId isStill files
  have hsplit : (cleanupSorted statOf compositionId isStill files).map (fun sf => sf.name) =
      ((cleanupSorted statOf compositionId isStill files).take 10).map (fun sf => sf.name) ++
      ((cleanupSorted statOf compositionId isStill files).drop 10).map (fun sf => sf.name) := by
    rw [← List.map_append, List.take_append_drop]
  have hMnodup : (files.filter (matchesArtifact compositionId isStill)).Nodup :=
    hnd.filter _
  have hnnodup :
      ((((cleanupSorted statOf compositionId isStill files).take 10).map (fun sf => sf.name)) ++
       (((cleanupSorted statOf compositionId isStill files).drop 10).map (fun sf => sf.name))).Nodup := by
    rw [← hsplit]
    exact hnames.nodup_iff.mpr hMnodup
  have hdisj := (List.nodup_append.mp hnnodup).2.2
  have hA : (files.filter (fun f =>
        !((cleanupDeleted statOf unlinkOk compositionId isStill files).contains f))).filter
        (matchesArtifact compositionId isStill) =
      (files.filter (matchesArtifact compositionId isStill)).filter (fun f =>
        !((cleanupDeleted statOf unlinkOk compositionId isStill files).contains f)) := by
    rw [List.filter_filter, List.filter_filter]
    exact List.filter_congr fun a _ => Bool.and_comm _ _
  rw [hA]
  have hperm2 : List.Perm (files.filter (matchesArtifact compositionId isStill))
      ((((cleanupSorted statOf compositionId isStill files).take 10).map (fun sf => sf.name)) ++
       (((cleanupSorted statOf compositionId isStill files).drop 10).map (fun sf => sf.name))) := by
    rw [← hsplit]
    exact hnames.symm
  refine (hperm2.filter _).trans ?_
  rw [List.filter_append]
  have hdn : ((((cleanupSorted statOf compositionId isStill files).drop 10).map
      (fun sf => sf.name))).filter (fun f =>
        !((cleanupDeleted statOf unlinkOk compositionId isStill files).contains f)) = [] := by
    apply List.filter_eq_nil_iff.mpr
    intro a ha
    have hcc : (cleanupDeleted statOf unlinkOk compositionId isStill files).contains a
        = true := by
      rw [hdel2]
      exact List.elem_iff.mpr ha
    intro hcontra
    simp at hcontra
    exact hcontra (List.elem_iff.mp hcc)
  have htn : ((((cleanupSorted statOf compositionId isStill files).take 10).map
      (fun sf => sf.name))).filter (fun f =>
        !((cleanupDeleted statOf unlinkOk compositionId isStill files).contains f)) =
      (((cleanupSorted statOf compositionId isStill files).take 10).map
        (fun sf => sf.name)) := by
    apply List.filter_eq_self.mpr
    intro a ha
    cases hcc : (cleanupDeleted statOf unlinkOk compositionId isStill files).contains a with
    | false => rfl
    | true =>
      rw [hdel2] at hcc
      exact absurd (List.elem_iff.mp hcc) (hdisj ha)
  rw [hdn, htn, List.append_nil]

/-- C2 amended: when pruning a listing with unique names in which every
matching file statted successfully AND every unlink succeeded, at most 10
matching files remain (exactly `min 10 n` of the `n` that matched; when
10 or fewer matched nothing at all is deleted), and the kept matching
files all have modification times at least as great as every pruned
matching file's. -/
theorem cleanupOldFiles_retention (statOf : String → Option Int)
    (unlinkOk : String → Bool) (compositionId : String) (isStill : Bool)
    (files : List String) (hnd : files.Nodup)
    (hstat : ∀ f ∈ files, matchesArtifact compositionId isStill f = true →
      (statOf f).isSome = true)
    (hunl : ∀ f ∈ files, matchesArtifact compositionId isStill f = true →
      unlinkOk f = true) :
    ∃ result,
      cleanupOldFiles statOf unlinkOk compositionId isStill (some files) = some result ∧
      (result.filter (matchesArtifact compositionId isStill)).length =
        min 10 (files.filter (matchesArtifact compositionId isStill)).length ∧
      ((files.filter (matchesArtifact compositionId isStill)).length ≤ 10 →
        result = files) ∧
      (∀ g ∈ result.filter (matchesArtifact compositionId isStill),
        ∀ f ∈ files.filter (matchesArtifact compositionId isStill),
          f ∉ result.filter (matchesArtifact compositionId isStill) →
          ∀ mf mg, statOf f = some mf → statOf g = some mg → mf ≤ mg) := by
  have hkept := cleanup_kept_perm statOf unlinkOk compositionId isStill files hnd hunl
  refine ⟨_, rfl, ?_, ?_, ?_⟩
  · rw [hkept.length_eq, List.length_map, List.length_take]
    congr 1
    show (sortByLe cleanupLe (cleanupCandidates statOf compositionId isStill files)).length = _
    rw [(sortByLe_perm cleanupLe _).length_eq]
    exact List.length_map _ _
  · intro h10
    have hlen : (cleanupSorted statOf compositionId isStill files).length ≤ 10 := by
      show (sortByLe cleanupLe (cleanupCandidates statOf compositionId isStill files)).length ≤ 10
      rw [(sortByLe_perm cleanupLe _).length_eq]
      unfold cleanupCandidates
      rw [List.length_map]
      exact h10
    have hdel0 : cleanupDeleted statOf unlinkOk compositionId isStill files = [] := by
      rw [cleanupDeleted_eq_dropNames statOf unlinkOk compositionId isStill files hunl,
        List.drop_eq_nil_of_le hlen]
      rfl
    apply List.filter_eq_self.mpr
    intro a _
    rw [hdel0]
    rfl
  · intro g hg f hf hfn mf mg hmf hmg
    have hgtn := hkept.mem_iff.mp hg
    obtain ⟨sg, hsg, hsgname⟩ := List.mem_map.mp hgtn
    have hnames := cleanupSorted_names_perm statOf compositionId isStill files
    have hsplit : (cleanupSorted statOf compositionId isStill files).map (fun sf => sf.name) =
        ((cleanupSorted statOf compositionId isStill files).take 10).map (fun sf => sf.name) ++
        ((cleanupSorted statOf compositionId isStill files).drop 10).map (fun sf => sf.name) := by
      rw [← List.map_append, List.take_append_drop]
    have hftd : f ∈
        (((cleanupSorted statOf compositionId isStill files).take 10).map (fun sf => sf.name)) ++
        (((cleanupSorted statOf compositionId isStill files).drop 10).map (fun sf => sf.name)) := by
      rw [← hsplit]
      exact hnames.mem_iff.mpr hf
    rcases List.mem_append.mp hftd with hft | hfd
    · exact absurd (hkept.mem_iff.mpr hft) hfn
    · obtain ⟨sf, hsf, hsfname⟩ := List.mem_map.mp hfd
      have hpair := cleanupSorted_pairwise statOf compositionId isStill files hstat
      have hpair2 : List.Pairwise (fun a b => cleanupLe a b = true)
          ((cleanupSorted statOf compositionId isStill files).take 10 ++
           (cleanupSorted statOf compositionId isStill files).drop 10) := by
        rw [List.take_append_drop]
        exact hpair
      have hR : cleanupLe sg sf = true := (List.pairwise_append.mp hpair2).2.2 sg hsg sf hsf
      have hsgmem := mem_cleanupSorted statOf compositionId isStill files sg
        (List.take_subset 10 _ hsg)
      have hsfmem := mem_cleanupSorted statOf compositionId isStill files sf
        (List.mem_of_mem_drop hsf)
      have hsgstats : sg.stats = some mg := by
        rw [hsgmem.1, hsgname, hmg]
      have hsfstats : sf.stats = some mf := by
        rw [hsfmem.1, hsfname, hmf]
      exact cleanupLe_elim sg sf mg mf hsgstats hsfstats hR

/-- An 11-entry listing in which every file matches composition id `a`,
kind video, with pairwise distinct lengths (used as modification times). -/
def prune11 : List String :=
  ["a.mp4", "aa.mp4", "aaa.mp4", "aaaa.mp4", "aaaaa.mp4", "aaaaaa.mp4",
   "aaaaaaa.mp4", "aaaaaaaa.mp4", "aaaaaaaaa.mp4", "aaaaaaaaaa.mp4",
   "aaaaaaaaaaa.mp4"]

/-- C2 counterexample: eleven matching files, every stat succeeds, but the
one unlink the pruning attempts fails (and is logged and skipped), so all
eleven matching files remain — refuting "at most 10 matching files remain
whenever all stat calls succeed". -/
theorem cleanupOldFiles_unlink_failure :
    (∀ f : String, ((fun g : String => some ((g.length : Int))) f).isSome = true) ∧
    (prune11.filter (matchesArtifact "a" false)).length = 11 ∧
    cleanupOldFiles (fun g : String => some ((g.length : Int)))
      (fun g : String => !(g == "a.mp4")) "a" false (some prune11) = some prune11 ∧
    (((cleanupOldFiles (fun g : String => some ((g.length : Int)))
        (fun g : String => !(g == "a.mp4")) "a" false
        (some prune11)).getD []).filter (matchesArtifact "a" false)).length = 11 :=
  ⟨fun _ => rfl, by decide, by decide, by decide⟩

/-- C2 amended witness: pruning eleven concrete matching files with
distinct modification times and fully successful stat/unlink calls. -/
theorem cleanupOldFiles_retention_witness :
    prune11.Nodup ∧
    (∀ f ∈ prune11, matchesArtifact "a" false f = true →
      ((fun g : String => some ((g.length : Int))) f).isSome = true) ∧
    (∀ f ∈ prune11, matchesArtifact "a" false f = true →
      (fun _ : String => true) f = true) ∧
    ∃ result,
      cleanupOldFiles (fun g : String => some ((g.length : Int))) (fun _ : String => true)
        "a" false (some prune11) = some result ∧
      (result.filter (matchesArtifact "a" false)).length =
        min 10 (prune11.filter (matchesArtifact "a" false)).length ∧
      ((prune11.filter (matchesArtifact "a" false)).length ≤ 10 → result = prune11) ∧
      (∀ g ∈ result.filter (matchesArtifact "a" false),
        ∀ f ∈ prune11.filter (matchesArtifact "a" false),
          f ∉ result.filter (matchesArtifact "a" false) →
          ∀ mf mg, (fun g : String => some ((g.length : Int))) f = some mf →
            (fun g : String => some ((g.length : Int))) g = some mg → mf ≤ mg) :=
  ⟨by decide, by decide, by decide,
    cleanupOldFiles_retention (fun g : String => some ((g.length : Int)))
      (fun _ : String => true) "a" false prune11 (by decide) (by decide) (by decide)⟩
